import Mathlib

/-!
Verification development for the comic-weaver generation orchestration engine
(`src/state/storyMachine.ts`, `src/services/geminiService.ts`).

JavaScript numbers are modelled as exact rationals (`ℚ`) where fractional
arithmetic matters (mood axes), as integers (`ℤ`) where only ordering and
±1 steps matter (panel indices), and as naturals (`ℕ`) for counters and
millisecond timestamps.  `undefined`/`null` fields become `Option`;
promise-returning calls become explicit result parameters.
-/

namespace ComicWeaver

/-- The four mood axes, in the insertion order of the `MoodVector` object
literals in the source (`types.ts`, and the `newMood` literals in
`storyMachine.ts`), which is the order `Object.keys` enumerates them. -/
inductive MoodKey where
  | adventure
  | danger
  | romance
  | drama
deriving DecidableEq, Repr, Fintype

/-- `MoodVector` from `types.ts`: four numeric axes. -/
structure MoodVector where
  adventure : ℚ
  danger : ℚ
  romance : ℚ
  drama : ℚ
deriving DecidableEq, Repr

/-- Axis lookup, `mood[key]`. -/
def MoodVector.get (m : MoodVector) : MoodKey → ℚ
  | .adventure => m.adventure
  | .danger => m.danger
  | .romance => m.romance
  | .drama => m.drama

/-- `Object.keys(newMood)` for a `MoodVector` literal: insertion order. -/
def moodKeys : List MoodKey := [.adventure, .danger, .romance, .drama]

/-- Canonical position of an axis in `moodKeys`. -/
def MoodKey.idx : MoodKey → Nat
  | .adventure => 0
  | .danger => 1
  | .romance => 2
  | .drama => 3

/-- The guard of the `MAKE_CHOICE → endingGenerating` transition
(storyMachine.ts lines 474-482): some axis satisfies
`context.mood[k] + impact[k] >= 1.0`. -/
def makeChoiceGuard (m i : MoodVector) : Bool :=
  decide (1 ≤ m.adventure + i.adventure) ||
  decide (1 ≤ m.danger + i.danger) ||
  decide (1 ≤ m.romance + i.romance) ||
  decide (1 ≤ m.drama + i.drama)

/-- The mood update performed in both `MAKE_CHOICE` branches
(storyMachine.ts lines 486-491 and 514-519): per axis
`Math.min(1.0, context.mood[k] + impact[k])`.  Note the source applies no
lower clamp. -/
def newMood (m i : MoodVector) : MoodVector :=
  { adventure := min 1 (m.adventure + i.adventure)
    danger := min 1 (m.danger + i.danger)
    romance := min 1 (m.romance + i.romance)
    drama := min 1 (m.drama + i.drama) }

/-- One step of the reduce in storyMachine.ts line 501:
`(a, b) => newMood[a] > newMood[b] ? a : b`. -/
def maxStep (nm : MoodVector) (a b : MoodKey) : MoodKey :=
  if nm.get b < nm.get a then a else b

/-- `Object.keys(newMood).reduce((a, b) => newMood[a] > newMood[b] ? a : b)`
(storyMachine.ts line 501): fold over the keys with the first key as the
initial accumulator. -/
def endingAxis (nm : MoodVector) : MoodKey :=
  (moodKeys.tail).foldl (maxStep nm) MoodKey.adventure

/-- Spec-modelled comparison definition, from the spec's words only
(not from the source): the clamp the spec prescribes for mood updates,
`clamp(old + impact, 0, 1)` per axis. -/
def specClamp01 (x : ℚ) : ℚ := max 0 (min 1 x)

/-- Spec-modelled comparison definition: the mood update as the spec words
it, with both clamps. -/
def specNewMood (m i : MoodVector) : MoodVector :=
  { adventure := specClamp01 (m.adventure + i.adventure)
    danger := specClamp01 (m.danger + i.danger)
    romance := specClamp01 (m.romance + i.romance)
    drama := specClamp01 (m.drama + i.drama) }

/-- `Panel` from `types.ts`. -/
structure Panel where
  image : String
  narrative : String
  narrativeAudio : Option String := none
  soundEffectAudio : Option String := none
  stingerAudio : Option String := none
deriving DecidableEq, Repr

/-- `Choice` from `types.ts`. -/
structure Choice where
  text : String
  impact : MoodVector
deriving DecidableEq, Repr

/-- `NPC` from `types.ts`. -/
structure NPC where
  name : String
  description : String
  referenceImage : String
deriving DecidableEq, Repr

/-- The machine's state names (`storyMachine.ts` `states`). -/
inductive SName where
  | idle
  | loadingSavedStory
  | loadingCompletedStory
  | generating
  | playing
  | endingGenerating
  | storyEnded
  | viewingPrevious
deriving DecidableEq, Repr

/-- `StoryContext` from `types.ts` (the fields the orchestration logic
touches; `theme`, `apiKey`, `elevenLabsApiKey` are carried opaquely). -/
structure StoryContext where
  mood : MoodVector
  choices : List Choice
  allPanels : List Panel
  currentPanelIndex : ℤ
  characterReference : Option String
  characterDescription : Option String
  isGenerating : Bool
  error : Option String
  ending : Option MoodKey
  backgroundMusic : Option String
  isMuted : Bool
  lastChoiceText : Option String
  npcs : List NPC
deriving DecidableEq, Repr

/-- The `MAKE_CHOICE` handler of the `playing` state
(storyMachine.ts lines 471-524): guarded transition to `endingGenerating`
with mood update and ending-axis recording, otherwise to `generating`
with the same mood update. -/
def makeChoicePlaying (c : StoryContext) (ch : Choice) : SName × StoryContext :=
  if makeChoiceGuard c.mood ch.impact then
    (.endingGenerating,
      { c with
        mood := newMood c.mood ch.impact
        ending := some (endingAxis (newMood c.mood ch.impact))
        lastChoiceText := some ch.text
        isGenerating := true
        choices := [] })
  else
    (.generating,
      { c with
        isGenerating := true
        mood := newMood c.mood ch.impact
        choices := []
        lastChoiceText := some ch.text })

/-- Navigation events handled by every active state. -/
inductive NavEvent where
  | viewPrev
  | viewNext
deriving DecidableEq, Repr

/-- The states whose `on` maps handle `VIEW_PREV`/`VIEW_NEXT`. -/
def activeState (st : SName) : Bool :=
  match st with
  | .generating | .playing | .endingGenerating | .viewingPrevious => true
  | _ => false

/-- `VIEW_PREV`/`VIEW_NEXT` as the four active states implement them
(storyMachine.ts lines 443-451, 525-534, 570-578, 614-622).
`VIEW_PREV` is `Math.max(0, i - 1)` in every state; `VIEW_NEXT` is
`Math.max(0, Math.min(n - 1, i + 1))` in `generating` and
`endingGenerating`, but only `Math.min(n - 1, i + 1)` — with no lower
clamp — in `playing` and `viewingPrevious`. -/
def navStep (st : SName) (ev : NavEvent) (c : StoryContext) : StoryContext :=
  match ev with
  | .viewPrev => { c with currentPanelIndex := max 0 (c.currentPanelIndex - 1) }
  | .viewNext =>
    match st with
    | .generating | .endingGenerating =>
      { c with currentPanelIndex := max 0 (min ((c.allPanels.length : ℤ) - 1) (c.currentPanelIndex + 1)) }
    | .playing | .viewingPrevious =>
      { c with currentPanelIndex := min ((c.allPanels.length : ℤ) - 1) (c.currentPanelIndex + 1) }
    | _ => c

/-- The `GenerationOutput` interface of `storyMachine.ts` (lines 21-28),
with `characterDescription` a `String` as the actor returns `charDesc!`. -/
structure GenerationOutput where
  newPanels : List Panel
  choices : List Choice
  characterDescription : String
  characterReference : Option String
  backgroundMusic : Option String
  newNpcs : List NPC
deriving DecidableEq, Repr

/-- JavaScript `a || b` on an optional string: an absent or empty string is
falsy. -/
def jsOrStr (a : Option String) (b : Option String) : Option String :=
  match a with
  | some s => if s.isEmpty then b else some s
  | none => b

/-- The `onDone` transition of the `generating` state
(storyMachine.ts lines 421-433): append the chapter's panels, install the
choices, keep an already-set character description/reference, replace the
music, append the new NPCs, and point the viewer at the first new panel.
All assigners read the pre-transition context. -/
def generatingOnDone (c : StoryContext) (out : GenerationOutput) :
    SName × StoryContext :=
  (.playing,
    { c with
      isGenerating := false
      allPanels := c.allPanels ++ out.newPanels
      choices := out.choices
      characterDescription := jsOrStr c.characterDescription (some out.characterDescription)
      characterReference := jsOrStr c.characterReference out.characterReference
      backgroundMusic := out.backgroundMusic
      npcs := c.npcs ++ out.newNpcs
      currentPanelIndex := (c.allPanels.length : ℤ) })

/-- The `onError` transition of the `generating` state
(storyMachine.ts lines 434-440): back to `playing`, flag cleared, error
message set (`event.error instanceof Error ? event.error.message : …`).
`errMsg` is the message of the thrown `Error`, absent when the thrown
value was not an `Error`. -/
def generatingOnError (c : StoryContext) (errMsg : Option String) :
    SName × StoryContext :=
  (.playing,
    { c with
      isGenerating := false
      error := some (errMsg.getD "An unknown error occurred during generation.") })

/-- The `onDone` transition of the `endingGenerating` state
(storyMachine.ts lines 556-563). -/
def endingGeneratingOnDone (c : StoryContext) (newPanels : List Panel) :
    SName × StoryContext :=
  (.playing,
    { c with
      isGenerating := false
      allPanels := c.allPanels ++ newPanels
      currentPanelIndex := (c.allPanels.length : ℤ) })

/-- The `onError` transition of the `endingGenerating` state
(storyMachine.ts lines 564-567): back to `playing` with only
`isGenerating: false` assigned — no error message. -/
def endingGeneratingOnError (c : StoryContext) : SName × StoryContext :=
  (.playing, { c with isGenerating := false })

/-! ### NPC portrait resolution (`generateChapter`, storyMachine.ts 116-128) -/

/-- A `newNpcs` entry of the director/orchestrator JSON: a name and a
description. -/
structure NewNpc where
  name : String
  description : String
deriving DecidableEq, Repr

/-- The roster lookup in storyMachine.ts line 120:
`npcs.find((n) => n.name === npc.name && n.description === npc.description)`. -/
def findNpc (npcs : List NPC) (d : NewNpc) : Option NPC :=
  npcs.find? (fun n => n.name == d.name && n.description == d.description)

/-- Resolution of one introduced character (storyMachine.ts lines 119-124):
reuse an exact (name, description) roster match, otherwise call
`generatePanelImage` for a portrait.  `portraitGen` models the image call's
result; the second component counts the image-generation calls issued. -/
def resolveNpc (npcs : List NPC) (portraitGen : NewNpc → String) (d : NewNpc) :
    NPC × Nat :=
  match findNpc npcs d with
  | some existing => (existing, 0)
  | none =>
    ({ name := d.name, description := d.description, referenceImage := portraitGen d }, 1)

/-- `createdOrReusedNpcs` (storyMachine.ts lines 117-126): resolve every
introduced character, in order; the second component is the total number of
portrait-generation calls issued.  (The source's
`directorNewNpcs.length ? Promise.all(…map…) : []` equals the plain map:
on an empty list the map is `[]`.) -/
def createdOrReusedNpcs (npcs : List NPC) (portraitGen : NewNpc → String) :
    List NewNpc → List NPC × Nat
  | [] => ([], 0)
  | d :: rest =>
    let r := resolveNpc npcs portraitGen d
    let rs := createdOrReusedNpcs npcs portraitGen rest
    (r.1 :: rs.1, r.2 + rs.2)

/-- `true` when the roster has an exact (name, description) match. -/
def hasMatch (npcs : List NPC) (d : NewNpc) : Bool :=
  (findNpc npcs d).isSome

/-- Occurrences of a (name, description) pair in a roster. -/
def pairCount (l : List NPC) (name description : String) : Nat :=
  (l.filter (fun n => n.name == name && n.description == description)).length

/-! ### Choice validation and fallback (`generateChapter`, storyMachine.ts 215-229) -/

/-- The `impact` object of a raw (unvalidated) choice as parsed from model
JSON: each axis field is `some q` when present with `typeof === 'number'`,
`none` otherwise. -/
structure RawImpact where
  adventure : Option ℚ
  danger : Option ℚ
  romance : Option ℚ
  drama : Option ℚ
deriving DecidableEq, Repr

/-- A raw choice entry: `text` is `some` when present as a string, `impact`
is `some` when present as an object.  A `none` list entry models a
null/undefined array element. -/
structure RawChoice where
  text : Option String
  impact : Option RawImpact
deriving DecidableEq, Repr

/-- `validChoice` (storyMachine.ts line 217):
`c && typeof c.text === 'string' && c.impact && typeof c.impact.adventure === 'number'`.
Only the `adventure` axis of the impact is checked. -/
def validChoice : Option RawChoice → Bool
  | none => false
  | some c =>
    c.text.isSome &&
      (match c.impact with
        | none => false
        | some imp => imp.adventure.isSome)

/-- The condition of storyMachine.ts line 218:
`!Array.isArray(finalChoices) || finalChoices.length !== 4 || !finalChoices.every(validChoice)`.
A non-array `directorChoices` value is `none`. -/
def choicesNeedFallback (cs : Option (List (Option RawChoice))) : Bool :=
  match cs with
  | none => true
  | some l => !(l.length == 4 && l.all validChoice)

/-- The choice-finalisation step (storyMachine.ts lines 216-229):
when the director choices fail the check, use `generateChoicesFallback`'s
result, or `[]` when that call throws; otherwise keep the director
choices.  `fallbackResult` models the fallback call's outcome.  The second
component records whether the fallback call was invoked. -/
def finalChoices (cs : Option (List (Option RawChoice)))
    (fallbackResult : Except Unit (List (Option RawChoice))) :
    List (Option RawChoice) × Bool :=
  if choicesNeedFallback cs then
    (match fallbackResult with
      | .ok l => l
      | .error _ => [], true)
  else
    (cs.getD [], false)

/-- Spec-modelled comparison definition, from the spec's words only:
a choice is accepted when it "has a text label and a numeric impact on all
four mood axes". -/
def specValidChoice : Option RawChoice → Bool
  | none => false
  | some c =>
    c.text.isSome &&
      (match c.impact with
        | none => false
        | some imp =>
          imp.adventure.isSome && imp.danger.isSome && imp.romance.isSome && imp.drama.isSome)

/-- Spec-modelled comparison definition: the spec's fallback trigger —
"≠4 entries or any entry fails the impact-shape check" over all four axes. -/
def specChoicesNeedFallback (cs : Option (List (Option RawChoice))) : Bool :=
  match cs with
  | none => true
  | some l => !(l.length == 4 && l.all specValidChoice)

/-! ### Per-chapter sound-effect and stinger caps (`generateChapter`,
storyMachine.ts 142-211)

All three rendering paths (reference-page, batch, sequential fallback) run
the same per-panel audio attachment inside `Promise.all(directorPanels.map(
async (panel, index) => …))`.  Each async callback executes its
synchronous prefix — including the reads `sfxCount < maxSfx` and
`stingerCount < maxStingers` — during the synchronous `map` loop, before
any callback has resumed past its `await`; the increments `sfxCount += 1`
and `stingerCount += 1` run only after the awaited promises resolve.
Hence every panel's `shouldGenSfx`/`shouldGenStinger` flag is computed
from the counters' values at the start of the map (0 and 0 at lines
143-144). -/

/-- The per-panel inputs of the audio-attachment stage: the resolved image,
the narrative, the sound-effect call's result (`""` models a failed or
skipped generation), the optional stinger prompt of the panel's audio
brief (`none` for absent or empty), and the stinger call's result. -/
structure PanelTask where
  image : String
  narrative : String
  sfxAudio : String
  stingerPrompt : Option String
  stingerAudio : String
deriving DecidableEq, Repr

/-- The audio-attachment stage of a chapter, as the source executes it:
every callback reads the shared counters before any increment, so the
flags use the initial counter values `sfx0`/`stinger0` (0 and 0 at the
call sites).  A panel keeps `soundEffectAudio`/`stingerAudio` exactly when
its flag was set and the generation returned a nonempty string
(`soundEffectAudio || undefined`, storyMachine.ts lines 170, 190, 207). -/
def attachAudio (sfx0 stinger0 : Nat) (tasks : List PanelTask) : List Panel :=
  tasks.map (fun p =>
    let shouldGenSfx := decide (sfx0 < 4)
    let shouldGenStinger := p.stingerPrompt.isSome && decide (stinger0 < 2)
    { image := p.image
      narrative := p.narrative
      narrativeAudio := none
      soundEffectAudio := if shouldGenSfx && !(p.sfxAudio == "") then some p.sfxAudio else none
      stingerAudio := if shouldGenStinger && !(p.stingerAudio == "") then some p.stingerAudio else none })

/-- Number of returned panels carrying a sound-effect artifact. -/
def sfxArtifacts (ps : List Panel) : Nat :=
  (ps.filter (fun p => p.soundEffectAudio.isSome)).length

/-- Number of returned panels carrying a stinger artifact. -/
def stingerArtifacts (ps : List Panel) : Nat :=
  (ps.filter (fun p => p.stingerAudio.isSome)).length

/-! ### Request scheduler (`geminiService.ts` lines 4-59)

Timestamps are milliseconds (`Date.now()`), naturals here.  The mutable
module state (`imageQueue`, `imageInFlight`, `imageStartTimestamps`)
becomes an explicit record; the `startLog` ghost field records every task
start ever, so the trailing-window property can be stated over the whole
history.  `now` records the time of the last processed event; `Date.now()`
is nondecreasing, which the theorems assume of event traces. -/

def IMAGE_RPM_LIMIT : Nat := 10

def IMAGE_CONCURRENCY_LIMIT : Nat := 3

def ONE_MINUTE_MS : Nat := 60000

/-- `pruneOldStarts` (geminiService.ts lines 14-17): keep the timestamps
`t` with `now - t < ONE_MINUTE_MS`, i.e. `now < t + ONE_MINUTE_MS`. -/
def pruneOldStarts (now : Nat) (ts : List Nat) : List Nat :=
  ts.filter (fun t => decide (now < t + ONE_MINUTE_MS))

/-- Scheduler state: pending queue length, in-flight count, the pruned
start-timestamp list, the full start history (ghost), and the last event
time. -/
structure SchedState where
  queue : Nat
  inFlight : Nat
  starts : List Nat
  startLog : List Nat
  now : Nat
deriving DecidableEq, Repr

/-- The module's initial state. -/
def initSched : SchedState :=
  { queue := 0, inFlight := 0, starts := [], startLog := [], now := 0 }

/-- One loop iteration's task start (geminiService.ts lines 31-33):
dequeue, raise the in-flight count, record the start timestamp. -/
def startOne (t : Nat) (s : SchedState) : SchedState :=
  { s with
    queue := s.queue - 1
    inFlight := s.inFlight + 1
    starts := s.starts ++ [t]
    startLog := s.startLog ++ [t] }

/-- The `while (canStartMore() && imageQueue.length > 0)` loop of
`processImageQueue` (geminiService.ts lines 30-43) at instant `t`, with
`canStartMore`'s test `imageInFlight < IMAGE_CONCURRENCY_LIMIT &&
imageStartTimestamps.length < IMAGE_RPM_LIMIT`.  The fuel bounds the
iteration count; each iteration consumes one queued task, so fuel
`s.queue` is enough.  (`canStartMore` re-prunes each iteration; at a fixed
instant the re-prune is a no-op on an already pruned list.) -/
def processLoop (t : Nat) : Nat → SchedState → SchedState
  | 0, s => s
  | fuel + 1, s =>
    if s.inFlight < IMAGE_CONCURRENCY_LIMIT ∧ s.starts.length < IMAGE_RPM_LIMIT ∧ 0 < s.queue then
      processLoop t fuel (startOne t s)
    else s

/-- `processImageQueue` at instant `t` (geminiService.ts lines 28-52):
prune, then admit queued tasks while the admission rule allows.  (The
tail of the function only arranges a later wake-up via `setTimeout`; a
later `tick` event models that.) -/
def processImageQueue (t : Nat) (s : SchedState) : SchedState :=
  let s1 := { s with starts := pruneOldStarts t s.starts, now := t }
  processLoop t s1.queue s1

/-- The scheduler's externally visible events: `submit` is
`scheduleImageTask` (enqueue, then run `processImageQueue`); `tick` is a
`setTimeout`-driven `processImageQueue` run; `complete` is a task's
`finally` handler (`imageInFlight -= 1`; the `scheduleNextTick(0)` it
performs is a later `tick` event). -/
inductive SchedEvent where
  | submit (t : Nat)
  | tick (t : Nat)
  | complete (t : Nat)
deriving DecidableEq, Repr

/-- The instant at which an event occurs. -/
def SchedEvent.time : SchedEvent → Nat
  | .submit t => t
  | .tick t => t
  | .complete t => t

/-- One event's effect on the scheduler state. -/
def schedStep (s : SchedState) : SchedEvent → SchedState
  | .submit t => processImageQueue t { s with queue := s.queue + 1 }
  | .tick t => processImageQueue t s
  | .complete t => { s with inFlight := s.inFlight - 1, now := t }

/-- Run a trace of events. -/
def runSched : List SchedEvent → SchedState → SchedState
  | [], s => s
  | e :: es, s => runSched es (schedStep s e)

/-- Event times are nondecreasing from `t0` on (`Date.now()` is
monotone). -/
def chronological : Nat → List SchedEvent → Bool
  | _, [] => true
  | t0, e :: es => decide (t0 ≤ e.time) && chronological e.time es

/-- Task starts in the trailing 60-second window `(t - 60000, t]` of the
start history. -/
def winCount (t : Nat) (log : List Nat) : Nat :=
  (log.filter (fun x => decide (t < x + ONE_MINUTE_MS) && decide (x ≤ t))).length

/-! ### Retry with backoff (`geminiService.ts` lines 61-93) -/

/-- A thrown JS error's `status`/`code` field value: a number or a
string. -/
inductive StatusVal where
  | num (n : Nat)
  | str (s : String)
deriving DecidableEq, Repr

/-- A thrown JS error as `isRateLimitError` inspects it: optional
`status` and `code` fields (`none` models absent or falsy) and a
`message`. -/
structure JsError where
  status : Option StatusVal
  code : Option StatusVal
  message : String
deriving DecidableEq, Repr

/-- Character-sequence search: `needle` occurs contiguously in
`haystack`. -/
def startsWithSeq : List Char → List Char → Bool
  | _, [] => true
  | [], _ :: _ => false
  | a :: as, b :: bs => a == b && startsWithSeq as bs

/-- `haystack.includes(needle)` on character lists. -/
def containsSeq : List Char → List Char → Bool
  | [], needle => needle.isEmpty
  | a :: as, needle => startsWithSeq (a :: as) needle || containsSeq as needle

/-- `s.includes(sub)` on strings. -/
def strIncludes (s sub : String) : Bool :=
  containsSeq s.data sub.data

/-- `isRateLimitError` (geminiService.ts lines 61-73):
`status || code` is `429` or `'RESOURCE_EXHAUSTED'`, or the lowercased
message contains `'rate'`, `'quota'`, `'too many requests'` or `'429'`. -/
def isRateLimitError (e : JsError) : Bool :=
  let status := match e.status with
    | some v => some v
    | none => e.code
  let msg := String.map Char.toLower e.message
  status == some (.num 429) ||
  status == some (.str "RESOURCE_EXHAUSTED") ||
  strIncludes msg "rate" ||
  strIncludes msg "quota" ||
  strIncludes msg "too many requests" ||
  strIncludes msg "429"

/-- The loop of `retryWithBackoff` (geminiService.ts lines 75-93) from a
given `attempt` counter value.  `f n` is attempt `n`'s outcome and
`jitter n` models `Math.floor(Math.random() * base)` before attempt
`n + 1`.  Returns the final outcome and the list of delays slept, each
`Math.min(max, base * 2 ** attempt) + jitter`.  The loop retries exactly
when the failure is rate-limit-shaped and `attempt < retries`
(the source throws when `!isRateLimitError(err) || attempt >= retries`). -/
def retryGo (f : Nat → Except JsError α) (jitter : Nat → Nat)
    (retries base maxDelay : Nat) (attempt : Nat) : Except JsError α × List Nat :=
  match f attempt with
  | .ok v => (.ok v, [])
  | .error e =>
    if h : isRateLimitError e = true ∧ attempt < retries then
      let d := min maxDelay (base * 2 ^ attempt) + jitter attempt
      let r := retryGo f jitter retries base maxDelay (attempt + 1)
      (r.1, d :: r.2)
    else
      (.error e, [])
termination_by retries - attempt
decreasing_by
  have := h.2
  omega

/-- `retryWithBackoff` with the default options `retries = 3`,
`baseDelayMs = 250`, `maxDelayMs = 1000`, starting at `attempt = 0`. -/
def retryWithBackoff (f : Nat → Except JsError α) (jitter : Nat → Nat) :
    Except JsError α × List Nat :=
  retryGo f jitter 3 250 1000 0

/-! ## Bridge lemmas -/

/-- The ending guard fires exactly when some post-impact (upper-clamped)
axis value reaches `1.0`. -/
lemma makeChoiceGuard_iff (m i : MoodVector) :
    makeChoiceGuard m i = true ↔ ∃ k, 1 ≤ (newMood m i).get k := by
  unfold makeChoiceGuard newMood
  simp only [Bool.or_eq_true, decide_eq_true_eq]
  constructor
  · rintro (((h | h) | h) | h)
    · exact ⟨.adventure, by simp [MoodVector.get, le_min_iff, h]⟩
    · exact ⟨.danger, by simp [MoodVector.get, le_min_iff, h]⟩
    · exact ⟨.romance, by simp [MoodVector.get, le_min_iff, h]⟩
    · exact ⟨.drama, by simp [MoodVector.get, le_min_iff, h]⟩
  · rintro ⟨k, hk⟩
    cases k <;> simp [MoodVector.get, le_min_iff] at hk <;> tauto

/-- Both `MAKE_CHOICE` branches install the same updated mood. -/
lemma makeChoicePlaying_mood (c : StoryContext) (ch : Choice) :
    ((makeChoicePlaying c ch).2).mood = newMood c.mood ch.impact := by
  unfold makeChoicePlaying
  split <;> rfl

/-- The recorded ending axis attains the maximum of the updated mood, and
among the axes attaining that maximum it is the one LAST in the canonical
order `adventure, danger, romance, drama`: the reduce's step keeps the
accumulator only on a strict `>`, so an equal later key replaces it. -/
lemma endingAxis_spec (nm : MoodVector) :
    (∀ k, nm.get k ≤ nm.get (endingAxis nm)) ∧
    (∀ k, nm.get (endingAxis nm) ≤ nm.get k → k.idx ≤ (endingAxis nm).idx) := by
  have he : endingAxis nm
      = maxStep nm (maxStep nm (maxStep nm .adventure .danger) .romance) .drama := rfl
  rw [he]
  unfold maxStep
  rcases lt_or_le (nm.get .danger) (nm.get .adventure) with h1 | h1
  · rw [if_pos h1]
    rcases lt_or_le (nm.get .romance) (nm.get .adventure) with h2 | h2
    · rw [if_pos h2]
      rcases lt_or_le (nm.get .drama) (nm.get .adventure) with h3 | h3
      · rw [if_pos h3]
        refine ⟨fun k => ?_, fun k hk => ?_⟩
        · cases k <;> simp only [MoodVector.get] at * <;> linarith
        · cases k <;> first | decide | (exfalso; simp only [MoodVector.get] at * <;> linarith)
      · rw [if_neg (not_lt.mpr h3)]
        refine ⟨fun k => ?_, fun k hk => ?_⟩
        · cases k <;> simp only [MoodVector.get] at * <;> linarith
        · cases k <;> first | decide | (exfalso; simp only [MoodVector.get] at * <;> linarith)
    · rw [if_neg (not_lt.mpr h2)]
      rcases lt_or_le (nm.get .drama) (nm.get .romance) with h3 | h3
      · rw [if_pos h3]
        refine ⟨fun k => ?_, fun k hk => ?_⟩
        · cases k <;> simp only [MoodVector.get] at * <;> linarith
        · cases k <;> first | decide | (exfalso; simp only [MoodVector.get] at * <;> linarith)
      · rw [if_neg (not_lt.mpr h3)]
        refine ⟨fun k => ?_, fun k hk => ?_⟩
        · cases k <;> simp only [MoodVector.get] at * <;> linarith
        · cases k <;> first | decide | (exfalso; simp only [MoodVector.get] at * <;> linarith)
  · rw [if_neg (not_lt.mpr h1)]
    rcases lt_or_le (nm.get .romance) (nm.get .danger) with h2 | h2
    · rw [if_pos h2]
      rcases lt_or_le (nm.get .drama) (nm.get .danger) with h3 | h3
      · rw [if_pos h3]
        refine ⟨fun k => ?_, fun k hk => ?_⟩
        · cases k <;> simp only [MoodVector.get] at * <;> linarith
        · cases k <;> first | decide | (exfalso; simp only [MoodVector.get] at * <;> linarith)
      · rw [if_neg (not_lt.mpr h3)]
        refine ⟨fun k => ?_, fun k hk => ?_⟩
        · cases k <;> simp only [MoodVector.get] at * <;> linarith
        · cases k <;> first | decide | (exfalso; simp only [MoodVector.get] at * <;> linarith)
    · rw [if_neg (not_lt.mpr h2)]
      rcases lt_or_le (nm.get .drama) (nm.get .romance) with h3 | h3
      · rw [if_pos h3]
        refine ⟨fun k => ?_, fun k hk => ?_⟩
        · cases k <;> simp only [MoodVector.get] at * <;> linarith
        · cases k <;> first | decide | (exfalso; simp only [MoodVector.get] at * <;> linarith)
      · rw [if_neg (not_lt.mpr h3)]
        refine ⟨fun k => ?_, fun k hk => ?_⟩
        · cases k <;> simp only [MoodVector.get] at * <;> linarith
        · cases k <;> first | decide | (exfalso; simp only [MoodVector.get] at * <;> linarith)

/-! ## Test fixtures -/

/-- A `playing`-state context with the initial mood
`{0.25, 0.25, 0.25, 0.25}` and no error. -/
def ctxA : StoryContext :=
  { mood := ⟨1/4, 1/4, 1/4, 1/4⟩
    choices := []
    allPanels := []
    currentPanelIndex := 0
    characterReference := none
    characterDescription := none
    isGenerating := false
    error := none
    ending := none
    backgroundMusic := none
    isMuted := false
    lastChoiceText := none
    npcs := [] }

/-- A choice whose impact ties the `adventure` and `danger` axes at
`1.0`. -/
def chTie : Choice := ⟨"press on", ⟨3/4, 3/4, 0, 0⟩⟩

/-- The claim's worked example: impact `0.8` on `adventure` alone. -/
def chAdv : Choice := ⟨"seek adventure", ⟨4/5, 0, 0, 0⟩⟩

/-- A choice with a negative `adventure` impact. -/
def chNeg : Choice := ⟨"retreat", ⟨-(1/2), 0, 0, 0⟩⟩

/-- A context holding exactly one panel, viewed at index 0. -/
def ctxOnePanel : StoryContext :=
  { ctxA with allPanels := [{ image := "img", narrative := "It begins." }] }

/-! ## Claims -/

/-- C1 (counterexample): from mood `{0.25, 0.25, 0.25, 0.25}`, a choice
with impact `{adventure: 0.75, danger: 0.75, romance: 0, drama: 0}` ties
`adventure` and `danger` at the maximum post-impact value `1.0`, yet the
machine records `danger` as the ending axis — not `adventure`, the first
axis of the canonical order, as the claim's tie-break states. -/
theorem makeChoice_tiebreak_counterexample :
    (makeChoicePlaying ctxA chTie).1 = SName.endingGenerating ∧
    (makeChoicePlaying ctxA chTie).2.ending = some MoodKey.danger ∧
    (newMood ctxA.mood chTie.impact).get .adventure = 1 ∧
    (newMood ctxA.mood chTie.impact).get .danger = 1 ∧
    (∀ k, (newMood ctxA.mood chTie.impact).get k ≤ 1) ∧
    MoodKey.danger ≠ MoodKey.adventure := by
  refine ⟨?_, ?_, ?_, ?_, ?_, by decide⟩
  · norm_num [makeChoicePlaying, makeChoiceGuard, ctxA, chTie]
  · norm_num [makeChoicePlaying, makeChoiceGuard, newMood, endingAxis, maxStep, moodKeys,
      ctxA, chTie, MoodVector.get]
  · norm_num [newMood, ctxA, chTie, MoodVector.get]
  · norm_num [newMood, ctxA, chTie, MoodVector.get]
  · intro k
    cases k <;> norm_num [newMood, ctxA, chTie, MoodVector.get]

/-- C1 (amended): a `MAKE_CHOICE` in `playing` transitions to
`endingGenerating` exactly when some post-impact axis value is ≥ 1.0 —
otherwise to `generating`, with no ending marker recorded — and in the
ending case the recorded ending marker is the axis with the maximum
post-impact value, ties broken toward the LAST axis in the canonical
order `adventure, danger, romance, drama` (the reduce keeps the earlier
key only on a strict `>`).  The claim's worked example holds: from mood
`{0.25,…}` and impact `{adventure: 0.8, …0}` the adventure axis becomes
`min(1.0, 1.05) = 1.0` and the recorded axis is `adventure`. -/
theorem makeChoice_ending_amended (c : StoryContext) (ch : Choice) :
    ((∃ k, 1 ≤ (newMood c.mood ch.impact).get k) →
      (makeChoicePlaying c ch).1 = SName.endingGenerating ∧
      ∃ a, (makeChoicePlaying c ch).2.ending = some a ∧
        (∀ k, (newMood c.mood ch.impact).get k ≤ (newMood c.mood ch.impact).get a) ∧
        (∀ k, (newMood c.mood ch.impact).get a ≤ (newMood c.mood ch.impact).get k →
          k.idx ≤ a.idx)) ∧
    ((¬ ∃ k, 1 ≤ (newMood c.mood ch.impact).get k) →
      (makeChoicePlaying c ch).1 = SName.generating ∧
      (makeChoicePlaying c ch).2.ending = c.ending ∧
      (makeChoicePlaying c ch).2.mood = newMood c.mood ch.impact ∧
      (makeChoicePlaying c ch).2.isGenerating = true) ∧
    ((makeChoicePlaying ctxA chAdv).1 = SName.endingGenerating ∧
      (makeChoicePlaying ctxA chAdv).2.mood.adventure = 1 ∧
      (makeChoicePlaying ctxA chAdv).2.ending = some MoodKey.adventure) := by
  refine ⟨?_, ?_, ?_, ?_, ?_⟩
  · intro h
    have hg : makeChoiceGuard c.mood ch.impact = true := (makeChoiceGuard_iff _ _).mpr h
    refine ⟨?_, endingAxis (newMood c.mood ch.impact), ?_,
      (endingAxis_spec _).1, (endingAxis_spec _).2⟩
    · unfold makeChoicePlaying
      rw [hg]
      rfl
    · unfold makeChoicePlaying
      rw [hg]
      rfl
  · intro h
    have hg : makeChoiceGuard c.mood ch.impact = false :=
      (Bool.not_eq_true _).mp (fun ht => h ((makeChoiceGuard_iff _ _).mp ht))
    unfold makeChoicePlaying
    rw [hg]
    exact ⟨rfl, rfl, rfl, rfl⟩
  · norm_num [makeChoicePlaying, makeChoiceGuard, ctxA, chAdv]
  · norm_num [makeChoicePlaying, makeChoiceGuard, newMood, ctxA, chAdv]
  · norm_num [makeChoicePlaying, makeChoiceGuard, newMood, endingAxis, maxStep, moodKeys,
      ctxA, chAdv, MoodVector.get]

/-- C1 (witness for the amended theorem): the worked example's input
satisfies the ending hypothesis (post-impact adventure = 1.0), and the
negative-impact choice satisfies the no-saturated-axis hypothesis, so
the machine goes to `endingGenerating` and `generating` respectively. -/
theorem makeChoice_ending_amended_witness :
    (∃ k, 1 ≤ (newMood ctxA.mood chAdv.impact).get k) ∧
    (¬ ∃ k, 1 ≤ (newMood ctxA.mood chNeg.impact).get k) ∧
    ((makeChoicePlaying ctxA chAdv).1 = SName.endingGenerating ∧
      ∃ a, (makeChoicePlaying ctxA chAdv).2.ending = some a ∧
        (∀ k, (newMood ctxA.mood chAdv.impact).get k ≤ (newMood ctxA.mood chAdv.impact).get a) ∧
        (∀ k, (newMood ctxA.mood chAdv.impact).get a ≤ (newMood ctxA.mood chAdv.impact).get k →
          k.idx ≤ a.idx)) ∧
    ((makeChoicePlaying ctxA chNeg).1 = SName.generating ∧
      (makeChoicePlaying ctxA chNeg).2.ending = ctxA.ending ∧
      (makeChoicePlaying ctxA chNeg).2.mood = newMood ctxA.mood chNeg.impact ∧
      (makeChoicePlaying ctxA chNeg).2.isGenerating = true) := by
  have h1 : ∃ k, 1 ≤ (newMood ctxA.mood chAdv.impact).get k :=
    ⟨.adventure, by norm_num [newMood, ctxA, chAdv, MoodVector.get]⟩
  have h2 : ¬ ∃ k, 1 ≤ (newMood ctxA.mood chNeg.impact).get k := by
    rintro ⟨k, hk⟩
    cases k <;> norm_num [newMood, ctxA, chNeg, MoodVector.get] at hk
  exact ⟨h1, h2, (makeChoice_ending_amended ctxA chAdv).1 h1,
    (makeChoice_ending_amended ctxA chNeg).2.1 h2⟩

/-- C2 (counterexample): from mood `{0.25,…}`, a choice with impact
`{adventure: -0.5, …0}` drives the adventure axis to `-0.25`: the update
is not `clamp(old + impact, 0, 1)` (which would give `0`), and the
resulting axis value lies outside `[0.0, 1.0]`. -/
theorem mood_clamp_counterexample :
    (makeChoicePlaying ctxA chNeg).2.mood.adventure = -(1/4) ∧
    specClamp01 (ctxA.mood.adventure + chNeg.impact.adventure) = 0 ∧
    (makeChoicePlaying ctxA chNeg).2.mood.adventure ≠
      specClamp01 (ctxA.mood.adventure + chNeg.impact.adventure) ∧
    ¬ (0 ≤ (makeChoicePlaying ctxA chNeg).2.mood.adventure) := by
  refine ⟨?_, ?_, ?_, ?_⟩ <;>
    norm_num [makeChoicePlaying, makeChoiceGuard, newMood, specClamp01, ctxA, chNeg]

/-- C2 (amended): on every `MAKE_CHOICE` processed in `playing`, each
axis of the resulting mood equals `min(old + impact, 1.0)` — the source
applies only the upper clamp — so every axis is ≤ 1.0 after the update,
but can drop below 0.0 under a negative impact. -/
theorem mood_update_upper_clamp_only (c : StoryContext) (ch : Choice) (k : MoodKey) :
    ((makeChoicePlaying c ch).2).mood.get k = min 1 (c.mood.get k + ch.impact.get k) ∧
    ((makeChoicePlaying c ch).2).mood.get k ≤ 1 := by
  rw [makeChoicePlaying_mood]
  constructor
  · cases k <;> rfl
  · cases k <;> exact min_le_left _ _

/-- A `playing`-state context with zero panels (panelCount = 0) and
viewing index 0. -/
def ctxEmptyPanels : StoryContext := ctxA

/-- C9 (counterexample): in the `playing` state with zero panels, a
`VIEW_NEXT` sets `currentPanelIndex` to
`Math.min(0 - 1, 0 + 1) = -1`: the index becomes negative, because the
`playing` (and `viewingPrevious`) `VIEW_NEXT` handlers apply no lower
clamp. -/
theorem nav_negative_index_counterexample :
    activeState SName.playing = true ∧
    ctxEmptyPanels.allPanels.length = 0 ∧
    ctxEmptyPanels.currentPanelIndex = 0 ∧
    (navStep SName.playing NavEvent.viewNext ctxEmptyPanels).currentPanelIndex = -1 ∧
    (navStep SName.playing NavEvent.viewNext ctxEmptyPanels).currentPanelIndex < 0 := by
  refine ⟨rfl, rfl, rfl, ?_, ?_⟩ <;> decide

/-- C9 (amended): `VIEW_PREV` moves the index by −1 clamped below at 0 in
every active state; `VIEW_NEXT` moves it by +1 clamped to
`[0, panelCount−1]` in `generating` and `endingGenerating`, but only
upper-clamped (`min(panelCount−1, i+1)`) in `playing` and
`viewingPrevious`, where a zero-panel context yields index −1.  Whenever
`panelCount ≥ 1` and the index starts inside `[0, panelCount−1]`, every
navigation event keeps it inside `[0, panelCount−1]`. -/
theorem nav_clamped_amended (st : SName) (ev : NavEvent) (c : StoryContext)
    (hact : activeState st = true) :
    ((st = SName.generating ∨ st = SName.endingGenerating ∨ ev = NavEvent.viewPrev) →
      0 ≤ (navStep st ev c).currentPanelIndex) ∧
    (1 ≤ c.allPanels.length → 0 ≤ c.currentPanelIndex →
      c.currentPanelIndex ≤ (c.allPanels.length : ℤ) - 1 →
      0 ≤ (navStep st ev c).currentPanelIndex ∧
      (navStep st ev c).currentPanelIndex ≤ (c.allPanels.length : ℤ) - 1) := by
  cases st <;> simp only [activeState] at hact <;> try exact absurd hact (by decide)
  all_goals
    cases ev <;> refine ⟨?_, ?_⟩ <;>
      first
        | (intros; simp only [navStep]; omega)
        | (rintro (h | h | h) <;> exact absurd h (by decide))

/-- C9 (witness): the amended theorem applied in the `playing` state to a
one-panel context at index 0. -/
theorem nav_clamped_amended_witness :
    activeState SName.playing = true ∧
    (((SName.playing = SName.generating ∨ SName.playing = SName.endingGenerating ∨
        NavEvent.viewNext = NavEvent.viewPrev) →
      0 ≤ (navStep SName.playing NavEvent.viewNext ctxOnePanel).currentPanelIndex) ∧
    (1 ≤ ctxOnePanel.allPanels.length → 0 ≤ ctxOnePanel.currentPanelIndex →
      ctxOnePanel.currentPanelIndex ≤ (ctxOnePanel.allPanels.length : ℤ) - 1 →
      0 ≤ (navStep SName.playing NavEvent.viewNext ctxOnePanel).currentPanelIndex ∧
      (navStep SName.playing NavEvent.viewNext ctxOnePanel).currentPanelIndex ≤
        (ctxOnePanel.allPanels.length : ℤ) - 1)) :=
  ⟨rfl, nav_clamped_amended SName.playing NavEvent.viewNext ctxOnePanel rfl⟩

/-- C5 (counterexample): when ending generation fails from a context whose
`error` field is `null`, the machine returns to `playing` with the flag
cleared but attaches NO user-visible error string — `error` stays `null`,
contradicting the claim that every generation failure attaches one. -/
theorem ending_error_silent_counterexample :
    ctxA.error = none ∧
    (endingGeneratingOnError ctxA).1 = SName.playing ∧
    (endingGeneratingOnError ctxA).2.isGenerating = false ∧
    (endingGeneratingOnError ctxA).2.error = none := by
  exact ⟨rfl, rfl, rfl, rfl⟩

/-- C5 (amended): on chapter-generation failure the machine returns to
`playing` with the flag cleared, a single error string attached, and
every other field of StoryState unchanged; on ending-generation failure
it returns to `playing` with the flag cleared and every other field —
including `error`, to which NO error string is attached — unchanged; on
both success paths the flag is likewise cleared, and chapter results are
applied in that single transition. -/
theorem generation_failure_amended (c : StoryContext) (msg : Option String)
    (out : GenerationOutput) (ps : List Panel) :
    ((generatingOnError c msg).1 = SName.playing ∧
      (generatingOnError c msg).2.isGenerating = false ∧
      (generatingOnError c msg).2.error =
        some (msg.getD "An unknown error occurred during generation.") ∧
      (generatingOnError c msg).2.mood = c.mood ∧
      (generatingOnError c msg).2.allPanels = c.allPanels ∧
      (generatingOnError c msg).2.choices = c.choices ∧
      (generatingOnError c msg).2.npcs = c.npcs ∧
      (generatingOnError c msg).2.characterDescription = c.characterDescription ∧
      (generatingOnError c msg).2.characterReference = c.characterReference ∧
      (generatingOnError c msg).2.currentPanelIndex = c.currentPanelIndex ∧
      (generatingOnError c msg).2.backgroundMusic = c.backgroundMusic ∧
      (generatingOnError c msg).2.ending = c.ending) ∧
    ((endingGeneratingOnError c).1 = SName.playing ∧
      (endingGeneratingOnError c).2.isGenerating = false ∧
      (endingGeneratingOnError c).2.error = c.error ∧
      (endingGeneratingOnError c).2.mood = c.mood ∧
      (endingGeneratingOnError c).2.allPanels = c.allPanels ∧
      (endingGeneratingOnError c).2.choices = c.choices ∧
      (endingGeneratingOnError c).2.npcs = c.npcs ∧
      (endingGeneratingOnError c).2.characterDescription = c.characterDescription ∧
      (endingGeneratingOnError c).2.characterReference = c.characterReference ∧
      (endingGeneratingOnError c).2.currentPanelIndex = c.currentPanelIndex) ∧
    (generatingOnDone c out).2.isGenerating = false ∧
    (generatingOnDone c out).2.allPanels = c.allPanels ++ out.newPanels ∧
    (endingGeneratingOnDone c ps).2.isGenerating = false ∧
    (endingGeneratingOnDone c ps).2.allPanels = c.allPanels ++ ps := by
  refine ⟨⟨rfl, rfl, rfl, rfl, rfl, rfl, rfl, rfl, rfl, rfl, rfl, rfl⟩,
    ⟨rfl, rfl, rfl, rfl, rfl, rfl, rfl, rfl, rfl, rfl⟩, rfl, rfl, rfl, rfl⟩

/-- A raw choice with a text label and a full four-axis numeric impact. -/
def goodRawChoice : Option RawChoice :=
  some ⟨some "go", some ⟨some (1/10), some 0, some 0, some 0⟩⟩

/-- A raw choice whose impact has a numeric `adventure` axis but lacks the
`danger`, `romance` and `drama` axes. -/
def partialRawChoice : Option RawChoice :=
  some ⟨some "leap", some ⟨some (1/5), none, none, none⟩⟩

/-- Four raw choices of which one lacks three impact axes. -/
def rawChoicesPartialAxes : Option (List (Option RawChoice)) :=
  some [goodRawChoice, goodRawChoice, goodRawChoice, partialRawChoice]

/-- C6 (counterexample): a primary choice set of exactly 4 entries in
which one entry carries a numeric impact ONLY on the `adventure` axis
passes the code's validation (`validChoice` checks just
`typeof c.impact.adventure === 'number'`), so the fallback is NOT
invoked — although the set fails the claim's validation ("a numeric
impact on all four mood axes"), under which the fallback should be
invoked. -/
theorem choice_fallback_counterexample :
    (finalChoices rawChoicesPartialAxes (Except.error ())).2 = false ∧
    (finalChoices rawChoicesPartialAxes (Except.error ())).1 =
      [goodRawChoice, goodRawChoice, goodRawChoice, partialRawChoice] ∧
    specChoicesNeedFallback rawChoicesPartialAxes = true := by
  refine ⟨?_, ?_, ?_⟩ <;> rfl

/-- The fallback-invoked flag equals the validation condition. -/
lemma finalChoices_snd (cs : Option (List (Option RawChoice)))
    (fr : Except Unit (List (Option RawChoice))) :
    (finalChoices cs fr).2 = choicesNeedFallback cs := by
  unfold finalChoices
  split
  case isTrue h => exact h.symm
  case isFalse h => simpa using (Bool.not_eq_true _).mp h |>.symm

/-- The validation passes exactly when the primary set is an array of 4
entries that all satisfy the code's `validChoice`. -/
lemma choicesNeedFallback_false_iff (cs : Option (List (Option RawChoice))) :
    choicesNeedFallback cs = false ↔
      ∃ l, cs = some l ∧ l.length = 4 ∧ ∀ c ∈ l, validChoice c = true := by
  cases cs with
  | none => simp [choicesNeedFallback]
  | some l =>
    simp only [choicesNeedFallback, Bool.not_eq_false', Bool.and_eq_true, beq_iff_eq,
      List.all_eq_true, Option.some.injEq]
    constructor
    · rintro ⟨h1, h2⟩
      exact ⟨l, rfl, h1, h2⟩
    · rintro ⟨l', hl, h1, h2⟩
      cases hl
      exact ⟨h1, h2⟩

/-- C6 (amended): the fallback choice call is invoked if and only if the
primary set is not an array of exactly 4 entries each of which is
non-null, has a string text label, and has an impact object with a
numeric `adventure` axis — only the `adventure` axis is checked, not all
four.  When the fallback is invoked and fails, the chapter completes with
an empty choice list; when it succeeds its list is used; when it is not
invoked the primary choices are kept. -/
theorem choice_fallback_amended (cs : Option (List (Option RawChoice)))
    (fr : Except Unit (List (Option RawChoice))) :
    ((finalChoices cs fr).2 = true ↔
      ¬ ∃ l, cs = some l ∧ l.length = 4 ∧ ∀ c ∈ l, validChoice c = true) ∧
    (choicesNeedFallback cs = true → (finalChoices cs (Except.error ())).1 = []) ∧
    (choicesNeedFallback cs = true → ∀ l, (finalChoices cs (Except.ok l)).1 = l) ∧
    (choicesNeedFallback cs = false →
      (finalChoices cs fr).1 = cs.getD [] ∧ (finalChoices cs fr).2 = false) := by
  refine ⟨?_, ?_, ?_, ?_⟩
  · rw [finalChoices_snd, ← choicesNeedFallback_false_iff cs]
    simp
  · intro h
    unfold finalChoices
    rw [h]
    rfl
  · intro h l
    unfold finalChoices
    rw [h]
    rfl
  · intro h
    unfold finalChoices
    rw [h]
    exact ⟨rfl, rfl⟩

/-- A primary choice set with only 3 entries. -/
def rawChoicesShort : Option (List (Option RawChoice)) :=
  some [goodRawChoice, goodRawChoice, goodRawChoice]

/-- C6 (witness): a 3-entry primary set triggers the fallback, and a
failing fallback yields the empty choice list. -/
theorem choice_fallback_amended_witness :
    choicesNeedFallback rawChoicesShort = true ∧
    (finalChoices rawChoicesShort (Except.error ())).1 = [] :=
  ⟨rfl, (choice_fallback_amended rawChoicesShort (Except.error ())).2.1 rfl⟩

/-! ### C8/C10: NPC roster lemmas -/

/-- `createdOrReusedNpcs` issues exactly one portrait call per introduced
character without an exact roster match. -/
lemma createdOrReusedNpcs_calls (npcs : List NPC) (g : NewNpc → String) (ds : List NewNpc) :
    (createdOrReusedNpcs npcs g ds).2 =
      (ds.filter (fun d => !(hasMatch npcs d))).length := by
  induction ds with
  | nil => rfl
  | cons d rest ih =>
    unfold createdOrReusedNpcs
    cases hfind : findNpc npcs d with
    | some n => simp [resolveNpc, hfind, List.filter_cons, hasMatch, ih]
    | none =>
      simp [resolveNpc, hfind, List.filter_cons, hasMatch, ih]
      omega

/-- A matched character resolves to the rostered entry itself, with no
portrait call. -/
lemma resolveNpc_matched (npcs : List NPC) (g : NewNpc → String) (d : NewNpc)
    (h : hasMatch npcs d = true) :
    (resolveNpc npcs g d).2 = 0 ∧ (resolveNpc npcs g d).1 ∈ npcs ∧
      (resolveNpc npcs g d).1.name = d.name ∧
      (resolveNpc npcs g d).1.description = d.description := by
  unfold hasMatch at h
  cases hfind : findNpc npcs d with
  | none => rw [hfind] at h; exact absurd h (by simp)
  | some n =>
    have hmem : n ∈ npcs := List.mem_of_find?_eq_some hfind
    have hpred := List.find?_some hfind
    simp only [Bool.and_eq_true, beq_iff_eq] at hpred
    refine ⟨?_, ?_, ?_, ?_⟩ <;> simp [resolveNpc, hfind, hmem, hpred.1, hpred.2]

/-- Every resolved entry keeps its introduced character's name and
description, matched or not. -/
lemma createdOrReusedNpcs_pairs (npcs : List NPC) (g : NewNpc → String) (ds : List NewNpc) :
    (createdOrReusedNpcs npcs g ds).1.length = ds.length ∧
    ∀ d ∈ ds, ∃ x ∈ (createdOrReusedNpcs npcs g ds).1,
      x.name = d.name ∧ x.description = d.description := by
  induction ds with
  | nil => exact ⟨rfl, by simp⟩
  | cons d rest ih =>
    unfold createdOrReusedNpcs
    refine ⟨by simpa using ih.1, ?_⟩
    intro e he
    rcases List.mem_cons.mp he with he | he
    · subst he
      cases hfind : findNpc npcs e with
      | some n =>
        have hpred := List.find?_some hfind
        simp only [Bool.and_eq_true, beq_iff_eq] at hpred
        exact ⟨n, by simp [resolveNpc, hfind], hpred.1, hpred.2⟩
      | none =>
        exact ⟨(resolveNpc npcs g e).1, by simp, by simp [resolveNpc, hfind],
          by simp [resolveNpc, hfind]⟩
    · rcases ih.2 e he with ⟨x, hx, hxn, hxd⟩
      exact ⟨x, by simp [hx], hxn, hxd⟩

/-- C8 (confirmed): NPC resolution is idempotent — the number of portrait
image-generation calls issued while building `createdOrReusedNpcs` equals
the number of introduced characters WITHOUT an exact (name, description)
roster match, and every matched character issues no call and resolves to
the rostered entry itself, cached portrait included. -/
theorem npc_resolution_idempotent (npcs : List NPC) (g : NewNpc → String)
    (ds : List NewNpc) :
    (createdOrReusedNpcs npcs g ds).2 =
      (ds.filter (fun d => !(hasMatch npcs d))).length ∧
    ∀ d ∈ ds, hasMatch npcs d = true →
      (resolveNpc npcs g d).2 = 0 ∧ (resolveNpc npcs g d).1 ∈ npcs ∧
      (resolveNpc npcs g d).1.name = d.name ∧
      (resolveNpc npcs g d).1.description = d.description :=
  ⟨createdOrReusedNpcs_calls npcs g ds,
    fun d _ h => resolveNpc_matched npcs g d h⟩

/-- A rostered NPC, and the director output reintroducing the identical
(name, description) pair. -/
def rosteredNpc : NPC := ⟨"Mira", "a silver-haired cartographer", "portrait-mira"⟩

/-- The same pair reintroduced by a later chapter. -/
def reintroduced : NewNpc := ⟨"Mira", "a silver-haired cartographer"⟩

/-- A portrait generator used by the concrete NPC examples. -/
def portraitGen0 : NewNpc → String := fun d => String.append "portrait-of-" d.name

/-- C8 (witness): resolving the already-rostered pair issues zero
portrait calls and returns the cached roster entry. -/
theorem npc_resolution_idempotent_witness :
    (reintroduced ∈ [reintroduced] ∧ hasMatch [rosteredNpc] reintroduced = true) ∧
    ((resolveNpc [rosteredNpc] portraitGen0 reintroduced).2 = 0 ∧
      (resolveNpc [rosteredNpc] portraitGen0 reintroduced).1 ∈ [rosteredNpc] ∧
      (resolveNpc [rosteredNpc] portraitGen0 reintroduced).1.name = reintroduced.name ∧
      (resolveNpc [rosteredNpc] portraitGen0 reintroduced).1.description =
        reintroduced.description) :=
  ⟨⟨by simp, rfl⟩,
    (npc_resolution_idempotent [rosteredNpc] portraitGen0 [reintroduced]).2
      reintroduced (by simp) rfl⟩

/-- C10 (confirmed): on successful chapter completion the roster becomes
the previous roster concatenated with the pipeline's `newNpcs` output;
that output has one entry per introduced character — reused ones
included — so a chapter reintroducing an already-rostered
(name, description) pair leaves the pair in the roster at least twice:
the roster is never deduplicated. -/
theorem roster_never_dedup (c : StoryContext) (out : GenerationOutput)
    (g : NewNpc → String) (ds : List NewNpc)
    (hout : out.newNpcs = (createdOrReusedNpcs c.npcs g ds).1) :
    (generatingOnDone c out).2.npcs = c.npcs ++ out.newNpcs ∧
    out.newNpcs.length = ds.length ∧
    ∀ d ∈ ds, hasMatch c.npcs d = true →
      2 ≤ pairCount ((generatingOnDone c out).2.npcs) d.name d.description := by
  refine ⟨rfl, by rw [hout]; exact (createdOrReusedNpcs_pairs c.npcs g ds).1, ?_⟩
  intro d hd hmatch
  have hnpcs : (generatingOnDone c out).2.npcs = c.npcs ++ out.newNpcs := rfl
  rw [hnpcs, pairCount, List.filter_append, List.length_append]
  have h1 : 1 ≤ (c.npcs.filter
      (fun n => n.name == d.name && n.description == d.description)).length := by
    unfold hasMatch findNpc at hmatch
    rcases Option.isSome_iff_exists.mp hmatch with ⟨n, hn⟩
    have hmem : n ∈ c.npcs := List.mem_of_find?_eq_some hn
    have hpred := List.find?_some hn
    have : n ∈ c.npcs.filter
        (fun n => n.name == d.name && n.description == d.description) :=
      List.mem_filter.mpr ⟨hmem, hpred⟩
    exact List.length_pos_of_mem this
  have h2 : 1 ≤ (out.newNpcs.filter
      (fun n => n.name == d.name && n.description == d.description)).length := by
    rcases (createdOrReusedNpcs_pairs c.npcs g ds).2 d hd with ⟨x, hx, hxn, hxd⟩
    have : x ∈ out.newNpcs.filter
        (fun n => n.name == d.name && n.description == d.description) := by
      rw [hout]
      exact List.mem_filter.mpr ⟨hx, by simp [hxn, hxd]⟩
    exact List.length_pos_of_mem this
  omega

/-- A context whose roster already holds `rosteredNpc`. -/
def ctxRoster : StoryContext := { ctxA with npcs := [rosteredNpc] }

/-- A chapter output that reintroduces the rostered pair. -/
def outReintro : GenerationOutput :=
  { newPanels := []
    choices := []
    characterDescription := "the hero"
    characterReference := none
    backgroundMusic := none
    newNpcs := (createdOrReusedNpcs ctxRoster.npcs portraitGen0 [reintroduced]).1 }

/-- C10 (witness): a chapter reintroducing the rostered pair leaves it
twice in the post-chapter roster. -/
theorem roster_never_dedup_witness :
    (outReintro.newNpcs = (createdOrReusedNpcs ctxRoster.npcs portraitGen0 [reintroduced]).1 ∧
      reintroduced ∈ [reintroduced] ∧ hasMatch ctxRoster.npcs reintroduced = true) ∧
    2 ≤ pairCount ((generatingOnDone ctxRoster outReintro).2.npcs)
      reintroduced.name reintroduced.description :=
  ⟨⟨rfl, by simp, rfl⟩,
    (roster_never_dedup ctxRoster outReintro portraitGen0 [reintroduced] rfl).2.2
      reintroduced (by simp) rfl⟩

/-! ### C4: sound-effect/stinger caps -/

/-- Six panel tasks — the director page's panel count — each with a
successful (nonempty) sound effect, a stinger prompt, and a successful
stinger. -/
def tasks6 : List PanelTask :=
  List.replicate 6 ⟨"img", "beat", "whoosh", some "sting", "hit"⟩

/-- C4 (code bug): the source's own comment promises "Cost caps: at most
4 SFX and 2 stingers per chapter" (storyMachine.ts line 142), but in all
three rendering paths every concurrently-started panel task reads
`sfxCount`/`stingerCount` before any task increments them, so with 6
panels whose audio generations all succeed the chapter returns 6 panels
with sound effects and 6 with stingers — the caps bound nothing. -/
theorem audio_caps_violated :
    tasks6.length = 6 ∧
    sfxArtifacts (attachAudio 0 0 tasks6) = 6 ∧
    stingerArtifacts (attachAudio 0 0 tasks6) = 6 ∧
    4 < sfxArtifacts (attachAudio 0 0 tasks6) ∧
    2 < stingerArtifacts (attachAudio 0 0 tasks6) := by
  refine ⟨rfl, rfl, rfl, ?_, ?_⟩ <;> decide

/-! ### C7: retry with backoff -/

/-- Delay-list characterisation of the retry loop, by induction on the
remaining retry budget: at most `retries - attempt` delays occur, and the
`i`-th delay from attempt counter `attempt` is
`min(maxDelay, base·2^(attempt+i)) + jitter (attempt+i)`. -/
lemma retryGo_spec (f : Nat → Except JsError α) (jitter : Nat → Nat)
    (retries base maxDelay : Nat) :
    ∀ k attempt, retries - attempt ≤ k →
      (retryGo f jitter retries base maxDelay attempt).2.length ≤ retries - attempt ∧
      ∀ i (h : i < (retryGo f jitter retries base maxDelay attempt).2.length),
        (retryGo f jitter retries base maxDelay attempt).2.get ⟨i, h⟩ =
          min maxDelay (base * 2 ^ (attempt + i)) + jitter (attempt + i) := by
  intro k
  induction k with
  | zero =>
    intro attempt hk
    rw [retryGo]
    cases f attempt with
    | ok v => exact ⟨by simp, by intro i h; simp at h⟩
    | error e =>
      dsimp only
      rw [dif_neg (fun hc => absurd hc.2 (by omega))]
      exact ⟨by simp, by intro i h; simp at h⟩
  | succ k ih =>
    intro attempt hk
    rw [retryGo]
    cases f attempt with
    | ok v => exact ⟨by simp, by intro i h; simp at h⟩
    | error e =>
      dsimp only
      by_cases hc : isRateLimitError e = true ∧ attempt < retries
      · rw [dif_pos hc]
        have hrec := ih (attempt + 1) (by omega)
        dsimp only
        simp only [List.length_cons]
        refine ⟨by omega, ?_⟩
        intro i h
        match i with
        | 0 => simp
        | j + 1 =>
          simp only [List.get_cons_succ]
          have hj := hrec.2 j (by omega)
          rw [hj]
          have harith : attempt + 1 + j = attempt + (j + 1) := by omega
          rw [harith]
      · rw [dif_neg hc]
        exact ⟨by simp, by intro i h; simp at h⟩

/-- The delays the loop has slept after `n` retries: the retry of attempt
`i` is preceded by `min(1000, 250·2^i) + jitter i` milliseconds. -/
def retryDelays (jitter : Nat → Nat) (n : Nat) : List Nat :=
  (List.range n).map (fun i => min 1000 (250 * 2 ^ i) + jitter i)

/-- One rate-limited failure below the retry budget makes the loop sleep
the backoff delay and move to the next attempt. -/
lemma retryGo_rl_step (f : Nat → Except JsError α) (jitter : Nat → Nat)
    (a : Nat) (e : JsError) (hf : f a = Except.error e)
    (hrl : isRateLimitError e = true) (ha : a < 3) :
    retryGo f jitter 3 250 1000 a =
      ((retryGo f jitter 3 250 1000 (a + 1)).1,
        (min 1000 (250 * 2 ^ a) + jitter a) :: (retryGo f jitter 3 250 1000 (a + 1)).2) := by
  rw [retryGo, hf]
  dsimp only
  rw [dif_pos ⟨hrl, ha⟩]

/-- After `n` consecutive rate-limited failures the loop reaches attempt
`n` carrying exactly the `n` backoff delays. -/
lemma retryGo_run (f : Nat → Except JsError α) (jitter : Nat → Nat) :
    ∀ n a, a + n ≤ 3 →
      (∀ m, a ≤ m → m < a + n → ∃ e, f m = Except.error e ∧ isRateLimitError e = true) →
      retryGo f jitter 3 250 1000 a =
        ((retryGo f jitter 3 250 1000 (a + n)).1,
          (List.range n).map (fun i => min 1000 (250 * 2 ^ (a + i)) + jitter (a + i))
            ++ (retryGo f jitter 3 250 1000 (a + n)).2) := by
  intro n
  induction n with
  | zero =>
    intro a _ _
    simp
  | succ n ih =>
    intro a ha hall
    obtain ⟨e, hfe, hrl⟩ := hall a (le_refl a) (by omega)
    rw [retryGo_rl_step f jitter a e hfe hrl (by omega)]
    rw [ih (a + 1) (by omega) (fun m hm1 hm2 => hall m (by omega) (by omega))]
    have hfun : ((fun i => min 1000 (250 * 2 ^ (a + i)) + jitter (a + i)) ∘ Nat.succ)
        = (fun i => min 1000 (250 * 2 ^ (a + 1 + i)) + jitter (a + 1 + i)) := by
      funext i
      simp only [Function.comp_apply, Nat.succ_eq_add_one]
      rw [show a + (i + 1) = a + 1 + i from by omega]
    have hmap : (List.range (n + 1)).map (fun i => min 1000 (250 * 2 ^ (a + i)) + jitter (a + i))
        = (min 1000 (250 * 2 ^ a) + jitter a) ::
          (List.range n).map (fun i => min 1000 (250 * 2 ^ (a + 1 + i)) + jitter (a + 1 + i)) := by
      rw [List.range_succ_eq_map, List.map_cons, List.map_map, hfun]
      simp only [Nat.add_zero]
    rw [hmap]
    rw [show a + (n + 1) = a + 1 + n from by omega]
    simp

/-- The loop stops at attempt `a` on a success or on a failure that is
not rate-limit-shaped (or is past the budget), with no further delay. -/
lemma retryGo_stop (f : Nat → Except JsError α) (jitter : Nat → Nat) (a : Nat) :
    (∀ v, f a = Except.ok v → retryGo f jitter 3 250 1000 a = (Except.ok v, [])) ∧
    (∀ e, f a = Except.error e → isRateLimitError e = false ∨ 3 ≤ a →
      retryGo f jitter 3 250 1000 a = (Except.error e, [])) := by
  constructor
  · intro v hf
    rw [retryGo, hf]
  · intro e hf hstop
    rw [retryGo, hf]
    dsimp only
    rw [dif_neg]
    rintro ⟨hrl, hlt⟩
    rcases hstop with hs | hs
    · rw [hrl] at hs
      exact absurd hs (by simp)
    · omega

/-- C7 (confirmed): with the default options (`retries = 3`,
`base = 250 ms`, `max = 1000 ms`), the retry loop behaves exactly as
claimed.  Whenever attempts `0 … n−1` all failed rate-limited (so the
loop really did retry each of them, sleeping
`min(1000, 250·2^i) + jitter i` before the retry of attempt `i`), then:
a non-rate-limit failure of attempt `n` propagates that error at once
with no further retry, a success of attempt `n` returns its value, and if
attempt `3` also fails rate-limited the budget is exhausted and the error
propagates — exactly 3 retries.  Every slept delay matches the backoff
formula with jitter strictly below the 250 ms base, and at most 3 delays
ever occur. -/
theorem retry_backoff_spec (f : Nat → Except JsError α) (jitter : Nat → Nat)
    (hj : ∀ n, jitter n < 250) :
    (∀ n, n ≤ 3 →
      (∀ m, m < n → ∃ e, f m = Except.error e ∧ isRateLimitError e = true) →
      (∀ e, f n = Except.error e → isRateLimitError e = false →
        retryWithBackoff f jitter = (Except.error e, retryDelays jitter n)) ∧
      (∀ v, f n = Except.ok v →
        retryWithBackoff f jitter = (Except.ok v, retryDelays jitter n))) ∧
    ((∀ m, m ≤ 3 → ∃ e, f m = Except.error e ∧ isRateLimitError e = true) →
      ∀ e, f 3 = Except.error e →
        retryWithBackoff f jitter = (Except.error e, retryDelays jitter 3)) ∧
    (∀ n i (h : i < (retryDelays jitter n).length),
      ∃ j, j < 250 ∧ (retryDelays jitter n).get ⟨i, h⟩ = min 1000 (250 * 2 ^ i) + j) ∧
    (retryWithBackoff f jitter).2.length ≤ 3 := by
  have hpre : ∀ n, n ≤ 3 →
      (∀ m, m < n → ∃ e, f m = Except.error e ∧ isRateLimitError e = true) →
      retryWithBackoff f jitter =
        ((retryGo f jitter 3 250 1000 n).1,
          retryDelays jitter n ++ (retryGo f jitter 3 250 1000 n).2) := by
    intro n hn hall
    unfold retryWithBackoff
    have := retryGo_run f jitter n 0 (by omega) (fun m _ hm2 => hall m (by omega))
    simpa [retryDelays] using this
  refine ⟨?_, ?_, ?_, ?_⟩
  · intro n hn hall
    constructor
    · intro e hf hrl
      rw [hpre n hn hall, ((retryGo_stop f jitter n).2 e hf (Or.inl hrl))]
      simp
    · intro v hf
      rw [hpre n hn hall, ((retryGo_stop f jitter n).1 v hf)]
      simp
  · intro hall e hf
    rw [hpre 3 (le_refl 3) (fun m hm => hall m (by omega)),
      ((retryGo_stop f jitter 3).2 e hf (Or.inr (le_refl 3)))]
    simp
  · intro n i h
    refine ⟨jitter i, hj i, ?_⟩
    simp [retryDelays]
  · exact (retryGo_spec f jitter 3 250 1000 3 0 (by omega)).1

/-- A rate-limit-shaped error (HTTP 429). -/
def rlError : JsError := ⟨some (.num 429), none, "quota exceeded"⟩

/-- An always-failing rate-limited task outcome. -/
def fRL : Nat → Except JsError Nat := fun _ => .error rlError

/-- A fixed 7 ms jitter stream. -/
def jitter7 : Nat → Nat := fun _ => 7

/-- C7 (witness): a persistently rate-limited task with 7 ms jitter is
retried exactly 3 times — delays 257, 507, 1007 ms — and then its error
propagates. -/
theorem retry_backoff_spec_witness :
    (∀ n, jitter7 n < 250) ∧
    (∀ m, m ≤ 3 → ∃ e, fRL m = Except.error e ∧ isRateLimitError e = true) ∧
    retryWithBackoff fRL jitter7 = (Except.error rlError, retryDelays jitter7 3) ∧
    retryDelays jitter7 3 = [257, 507, 1007] := by
  have hj : ∀ n, jitter7 n < 250 := fun _ => by norm_num [jitter7]
  have hall : ∀ m, m ≤ 3 → ∃ e, fRL m = Except.error e ∧ isRateLimitError e = true :=
    fun m _ => ⟨rlError, rfl, by decide⟩
  exact ⟨hj, hall, (retry_backoff_spec fRL jitter7 hj).2.1 hall rlError rfl, by decide⟩

/-! ### C3: scheduler invariants -/

/-- A pointwise-weaker filter keeps no more elements. -/
lemma length_filter_le_of_imp (l : List α) (p q : α → Bool)
    (h : ∀ x, p x = true → q x = true) :
    (l.filter p).length ≤ (l.filter q).length := by
  induction l with
  | nil => simp
  | cons a tl ih =>
    simp only [List.filter_cons]
    by_cases hp : p a = true
    · rw [if_pos hp, if_pos (h a hp)]
      simpa using ih
    · rw [if_neg hp]
      by_cases hq : q a = true
      · rw [if_pos hq]
        exact ih.trans (by simp)
      · rw [if_neg hq]
        exact ih

/-- Pruning at a later instant subsumes an earlier prune. -/
lemma pruneOldStarts_pruneOldStarts (t0 t : Nat) (h : t0 ≤ t) (l : List Nat) :
    pruneOldStarts t (pruneOldStarts t0 l) = pruneOldStarts t l := by
  induction l with
  | nil => rfl
  | cons a tl ih =>
    unfold pruneOldStarts at ih ⊢
    simp only [List.filter_cons]
    by_cases h1 : t < a + ONE_MINUTE_MS
    · have h0 : t0 < a + ONE_MINUTE_MS := lt_of_le_of_lt h h1
      simp [h0, h1, List.filter_cons, ih]
    · by_cases h0 : t0 < a + ONE_MINUTE_MS
      · simp [h0, h1, List.filter_cons, ih]
      · simp [h0, h1, ih]

/-- Pruning at `t` keeps a start stamped `t` itself. -/
lemma pruneOldStarts_append_self (t : Nat) (l : List Nat) :
    pruneOldStarts t (l ++ [t]) = pruneOldStarts t l ++ [t] := by
  have ht : t < t + ONE_MINUTE_MS := by unfold ONE_MINUTE_MS; omega
  simp [pruneOldStarts, List.filter_append, ht]

/-- The scheduler invariant: the in-flight count respects the concurrency
limit, the live timestamp list is the start history pruned at some instant
no later than the current one, and every trailing 60-second window of the
start history holds at most `IMAGE_RPM_LIMIT` starts. -/
def SchedInv (s : SchedState) : Prop :=
  s.inFlight ≤ IMAGE_CONCURRENCY_LIMIT ∧
  (∃ t0, t0 ≤ s.now ∧ s.starts = pruneOldStarts t0 s.startLog) ∧
  (∀ u, winCount u s.startLog ≤ IMAGE_RPM_LIMIT)

/-- The admission loop preserves the invariant at a fixed instant: each
admitted start is only taken with fewer than 3 tasks in flight and fewer
than 10 starts in the pruned window. -/
lemma processLoop_inv (t : Nat) :
    ∀ fuel (s : SchedState),
      s.inFlight ≤ IMAGE_CONCURRENCY_LIMIT →
      s.starts = pruneOldStarts t s.startLog →
      (∀ u, winCount u s.startLog ≤ IMAGE_RPM_LIMIT) →
      (processLoop t fuel s).inFlight ≤ IMAGE_CONCURRENCY_LIMIT ∧
      (processLoop t fuel s).starts = pruneOldStarts t (processLoop t fuel s).startLog ∧
      (∀ u, winCount u (processLoop t fuel s).startLog ≤ IMAGE_RPM_LIMIT) ∧
      (processLoop t fuel s).now = s.now := by
  intro fuel
  induction fuel with
  | zero =>
    intro s h1 h2 h3
    exact ⟨h1, h2, h3, rfl⟩
  | succ fuel ih =>
    intro s h1 h2 h3
    rw [processLoop]
    split
    case isTrue hc =>
      obtain ⟨hinf, hlen, hq⟩ := hc
      refine ih (startOne t s) ?_ ?_ ?_
      · simpa [startOne] using hinf
      · simp only [startOne]
        rw [pruneOldStarts_append_self, ← h2]
      · intro u
        simp only [startOne]
        unfold winCount
        rw [List.filter_append, List.length_append]
        by_cases hu : t ≤ u
        · have hmain : winCount u s.startLog ≤ (pruneOldStarts t s.startLog).length := by
            unfold winCount pruneOldStarts
            refine length_filter_le_of_imp _ _ _ ?_
            intro x hx
            simp only [Bool.and_eq_true, decide_eq_true_eq] at hx
            simp only [decide_eq_true_eq]
            omega
          rw [← h2] at hmain
          unfold winCount at hmain
          have hsingle : ((([t] : List Nat)).filter
              (fun x => decide (u < x + ONE_MINUTE_MS) && decide (x ≤ u))).length ≤ 1 := by
            simp only [List.filter_cons, List.filter_nil]
            split <;> simp
          unfold IMAGE_RPM_LIMIT at hlen ⊢
          omega
        · have hb : (decide (u < t + ONE_MINUTE_MS) && decide (t ≤ u)) = false := by
            simp [hu]
          have hsingle : ((([t] : List Nat)).filter
              (fun x => decide (u < x + ONE_MINUTE_MS) && decide (x ≤ u))).length = 0 := by
            simp only [List.filter_cons, List.filter_nil, hb]
            rfl
          rw [hsingle]
          have h3u := h3 u
          unfold winCount at h3u
          omega
    case isFalse hc =>
      exact ⟨h1, h2, h3, rfl⟩

/-- Every scheduler event at an instant no earlier than the state's clock
preserves the invariant and advances the clock to the event's time. -/
lemma schedStep_inv (s : SchedState) (e : SchedEvent)
    (h : SchedInv s) (ht : s.now ≤ e.time) :
    SchedInv (schedStep s e) ∧ (schedStep s e).now = e.time := by
  obtain ⟨h1, ⟨t0, ht0, hstarts⟩, h3⟩ := h
  cases e with
  | submit t =>
    simp only [SchedEvent.time] at ht
    have hpp : pruneOldStarts t (pruneOldStarts t0 s.startLog) = pruneOldStarts t s.startLog :=
      pruneOldStarts_pruneOldStarts t0 t (le_trans ht0 ht) _
    have hloop := processLoop_inv t
      ({ s with queue := s.queue + 1, starts := pruneOldStarts t s.starts, now := t }).queue
      { s with queue := s.queue + 1, starts := pruneOldStarts t s.starts, now := t }
      h1
      (by show pruneOldStarts t s.starts = pruneOldStarts t s.startLog
          rw [hstarts]; exact hpp)
      h3
    exact ⟨⟨hloop.1, ⟨t, le_of_eq (hloop.2.2.2).symm, hloop.2.1⟩, hloop.2.2.1⟩, hloop.2.2.2⟩
  | tick t =>
    simp only [SchedEvent.time] at ht
    have hpp : pruneOldStarts t (pruneOldStarts t0 s.startLog) = pruneOldStarts t s.startLog :=
      pruneOldStarts_pruneOldStarts t0 t (le_trans ht0 ht) _
    have hloop := processLoop_inv t
      ({ s with starts := pruneOldStarts t s.starts, now := t }).queue
      { s with starts := pruneOldStarts t s.starts, now := t }
      h1
      (by show pruneOldStarts t s.starts = pruneOldStarts t s.startLog
          rw [hstarts]; exact hpp)
      h3
    exact ⟨⟨hloop.1, ⟨t, le_of_eq (hloop.2.2.2).symm, hloop.2.1⟩, hloop.2.2.1⟩, hloop.2.2.2⟩
  | complete t =>
    simp only [SchedEvent.time] at ht
    refine ⟨⟨?_, ⟨t0, ?_, hstarts⟩, h3⟩, rfl⟩
    · show s.inFlight - 1 ≤ IMAGE_CONCURRENCY_LIMIT
      omega
    · show t0 ≤ t
      exact le_trans ht0 ht

/-- A chronological event trace preserves the invariant. -/
lemma runSched_inv : ∀ (es : List SchedEvent) (s : SchedState),
    SchedInv s → chronological s.now es = true → SchedInv (runSched es s) := by
  intro es
  induction es with
  | nil => exact fun s h _ => h
  | cons e rest ih =>
    intro s h hch
    simp only [chronological, Bool.and_eq_true, decide_eq_true_eq] at hch
    have step := schedStep_inv s e h hch.1
    exact ih (schedStep s e) step.1 (by rw [step.2]; exact hch.2)

/-- C3 (confirmed): for every chronological sequence of scheduler events
(task submissions, wake-up ticks, completions), the reached state has at
most `IMAGE_CONCURRENCY_LIMIT = 3` tasks in flight, and every trailing
60-second window of the start history holds at most
`IMAGE_RPM_LIMIT = 10` task starts — timestamps older than 60 seconds
are pruned before each admission check.  Any prefix of a trace is itself
a trace, so the bound holds at every point of execution. -/
theorem scheduler_limits (es : List SchedEvent) (h : chronological 0 es = true) :
    (runSched es initSched).inFlight ≤ IMAGE_CONCURRENCY_LIMIT ∧
    ∀ t, winCount t (runSched es initSched).startLog ≤ IMAGE_RPM_LIMIT := by
  have h0 : SchedInv initSched := by
    refine ⟨by decide, ⟨0, le_refl 0, rfl⟩, ?_⟩
    intro u
    simp [winCount, initSched, IMAGE_RPM_LIMIT]
  have hrun := runSched_inv es initSched h0 h
  exact ⟨hrun.1, hrun.2.2⟩

/-- A burst of five submissions at time 0, one completion, and a wake-up
tick. -/
def trace0 : List SchedEvent :=
  [.submit 0, .submit 0, .submit 0, .submit 0, .submit 0, .complete 10, .tick 10]

/-- C3 (witness): the limits hold on the concrete burst trace. -/
theorem scheduler_limits_witness :
    chronological 0 trace0 = true ∧
    ((runSched trace0 initSched).inFlight ≤ IMAGE_CONCURRENCY_LIMIT ∧
    ∀ t, winCount t (runSched trace0 initSched).startLog ≤ IMAGE_RPM_LIMIT) :=
  ⟨by decide, scheduler_limits trace0 (by decide)⟩

end ComicWeaver
